import Mathlib

/-!
Verification of the snapshot resolution service (`snapshot.py`).

The development shallowly embeds the service's pure logic in Lean:

* `download` models the pycurl retry loop of the Python `download` function.
  The network is an environment `Nat → CurlOutcome` giving, for each attempt
  index, what `c.perform()` did (bytes appended to the buffer, response code,
  or a pycurl error code).  Besides the final result, the embedding returns
  the trace of resume offsets (the value of `f.tell()` at the start of each
  executed attempt) and the list of backoff sleeps performed.
* `get_file_info` models the requests-based inspector; the environment is a
  `FetchOutcome` describing what `requests.get` produced for one URL.
* `get_src` / `get_bin` model the two Flask endpoints; the upstream snapshot
  probe is `Option (List Nat)` (payload bytes of `download`, or `none` when
  `download` raised) and mirror candidates are probed through a function
  from candidate filename (resp. mirror path) to `FetchOutcome`.

Python dicts with optional keys are embedded as structures of `Option`
fields; `KeyError` and the dateutil parse error become `PyExc` values in an
`Except` monad, since those exceptions are not caught by the handlers.
-/

/-! ### Small string helpers (Python string operations on `List Char`) -/

/-- Decimal digits of `n` (most significant first); empty for `0`.
The first argument is fuel; `n` itself is always enough fuel. -/
def decAux : Nat → Nat → List Char
  | 0, _ => []
  | fuel + 1, n => if n = 0 then [] else decAux fuel (n / 10) ++ [Char.ofNat (48 + n % 10)]

/-- Decimal rendering of a natural number, as `str(n)` in Python. -/
def decRepr (n : Nat) : String := if n = 0 then "0" else ⟨decAux n n⟩

/-- Left-pad a string with zeros up to width `w` (as `%0wd` in `strftime`). -/
def zeroPad (w : Nat) (s : String) : String :=
  ⟨List.replicate (w - s.length) '0' ++ s.data⟩

/-- `pre` is a prefix of `s`, on character lists. -/
def listIsPrefix : List Char → List Char → Bool
  | [], _ => true
  | _ :: _, [] => false
  | a :: as, b :: bs => a = b && listIsPrefix as bs

/-- Python `s.startswith(p)`. -/
def pyStartsWith (s p : String) : Bool := listIsPrefix p.data s.data

/-- Python `s.endswith(p)`. -/
def pyEndsWith (s p : String) : Bool := listIsPrefix p.data.reverse s.data.reverse

/-- Python `s.split('-')[0]`: the part of `s` before the first dash. -/
def takeUntilDash : List Char → List Char
  | [] => []
  | c :: cs => if c = '-' then [] else c :: takeUntilDash cs

/-- Python `s[0:k]`. -/
def pyTake (s : String) (k : Nat) : String := ⟨s.data.take k⟩

/-- `os.path.basename`: everything after the last `/`. -/
def basename (s : String) : String := ⟨s.data.foldl (fun acc c => if c = '/' then [] else acc ++ [c]) []⟩

def isSpace (c : Char) : Bool := c = ' ' || c = '\t' || c = '\n' || c = '\r'

/-- Python `s.split()` (split on runs of whitespace, dropping empty tokens);
the second argument accumulates the current token in reverse. -/
def splitWsAux : List Char → List Char → List String
  | [], acc => if acc.isEmpty then [] else [⟨acc.reverse⟩]
  | c :: cs, acc =>
    if isSpace c then
      if acc.isEmpty then splitWsAux cs [] else ⟨acc.reverse⟩ :: splitWsAux cs []
    else splitWsAux cs (c :: acc)

def pyTokens (s : String) : List String := splitWsAux s.data []

/-- Python `s.replace(pat, '')` for a non-empty `pat`: drop every
(left-to-right, non-overlapping) occurrence of `pat`.  Fuel-based; the
length of the scanned list is always enough fuel. -/
def dropOccAux (pat : List Char) : Nat → List Char → List Char
  | 0, l => l
  | _ + 1, [] => []
  | fuel + 1, c :: cs =>
    if listIsPrefix pat (c :: cs) then dropOccAux pat fuel ((c :: cs).drop pat.length)
    else c :: dropOccAux pat fuel cs

/-- Python `s.replace(pat, '')`. -/
def pyReplaceDrop (s pat : String) : String := ⟨dropOccAux pat.data s.data.length s.data⟩

/-! ### Timestamps and `strftime("%Y%m%dT%H%M%SZ")` -/

structure Timestamp where
  year : Nat
  month : Nat
  day : Nat
  hour : Nat
  minute : Nat
  second : Nat
deriving DecidableEq

/-- Field bounds guaranteed by `dateutil.parser.parse` for any parseable
`Last-Modified` header value (months are 1..12 and so on; years have at
most four digits). -/
def Timestamp.wf (t : Timestamp) : Prop :=
  t.year < 10000 ∧ t.month < 100 ∧ t.day < 100 ∧ t.hour < 100 ∧ t.minute < 100 ∧ t.second < 100

instance (t : Timestamp) : Decidable t.wf := by
  unfold Timestamp.wf
  infer_instance

/-- `parsedate(h).strftime("%Y%m%dT%H%M%SZ")`. -/
def formatTimestamp (t : Timestamp) : String :=
  zeroPad 4 (decRepr t.year) ++ zeroPad 2 (decRepr t.month) ++ zeroPad 2 (decRepr t.day) ++ "T" ++
    zeroPad 2 (decRepr t.hour) ++ zeroPad 2 (decRepr t.minute) ++ zeroPad 2 (decRepr t.second) ++ "Z"

theorem strLen_mk (l : List Char) : (String.mk l).length = l.length := rfl

theorem strLen_data (s : String) : s.length = s.data.length := rfl

theorem strLen_append (a b : String) : (a ++ b).length = a.length + b.length := by
  cases a with
  | mk la =>
    cases b with
    | mk lb =>
      show (String.mk (la ++ lb)).length = _
      rw [strLen_mk, List.length_append]
      rfl

theorem zeroPad_len (w : Nat) (s : String) (h : s.length ≤ w) : (zeroPad w s).length = w := by
  rw [zeroPad, strLen_mk, List.length_append, List.length_replicate]
  simp only [strLen_data] at h ⊢
  omega

theorem decAux_len : ∀ fuel n k, n < 10 ^ k → (decAux fuel n).length ≤ k := by
  intro fuel
  induction fuel with
  | zero => intro n k _; simp [decAux]
  | succ fuel ih =>
    intro n k hk
    by_cases h0 : n = 0
    · simp [decAux, h0]
    · cases k with
      | zero => simp at hk; omega
      | succ k =>
        have hd : n / 10 < 10 ^ k := by
          have h10 : 10 ^ (k + 1) = 10 ^ k * 10 := by ring
          rw [h10] at hk
          omega
        have := ih (n / 10) k hd
        simp [decAux, h0]
        omega

theorem decRepr_len (n k : Nat) (h1 : 1 ≤ k) (h : n < 10 ^ k) : (decRepr n).length ≤ k := by
  rw [decRepr]
  by_cases h0 : n = 0
  · rw [if_pos h0]; show 1 ≤ k; omega
  · simp only [h0, if_false, strLen_mk]
    exact decAux_len n n k h

/-- A well-formed timestamp always formats to the fixed 16-character shape
`YYYYMMDDTHHMMSSZ`. -/
theorem formatTimestamp_len (t : Timestamp) (h : t.wf) : (formatTimestamp t).length = 16 := by
  obtain ⟨h1, h2, h3, h4, h5, h6⟩ := h
  rw [formatTimestamp]
  rw [strLen_append, strLen_append, strLen_append, strLen_append, strLen_append, strLen_append,
    strLen_append]
  rw [zeroPad_len 4 _ (decRepr_len _ 4 (by omega) (by norm_num at h1 ⊢; omega)),
    zeroPad_len 2 _ (decRepr_len _ 2 (by omega) (by norm_num at h2 ⊢; omega)),
    zeroPad_len 2 _ (decRepr_len _ 2 (by omega) (by norm_num at h3 ⊢; omega)),
    zeroPad_len 2 _ (decRepr_len _ 2 (by omega) (by norm_num at h4 ⊢; omega)),
    zeroPad_len 2 _ (decRepr_len _ 2 (by omega) (by norm_num at h5 ⊢; omega)),
    zeroPad_len 2 _ (decRepr_len _ 2 (by omega) (by norm_num at h6 ⊢; omega))]
  rfl

/-! ### The `download` function (pycurl retry loop) -/

/-- `pycurl.E_COULDNT_CONNECT`. -/
def errCouldntConnect : Nat := 7

/-- `pycurl.E_PARTIAL_FILE`. -/
def errPartFile : Nat := 18

/-- `pycurl.E_ABORTED_BY_CALLBACK` (the 10-minute progress timeout raises
inside the callback and surfaces as this pycurl error). -/
def errAbortedCallback : Nat := 42

/-- The pycurl error codes the `download` loop retries. -/
def transientCodes : List Nat := [errPartFile, errCouldntConnect, errAbortedCallback]

def maxretries : Nat := 10

/-- What one `c.perform()` call did: either it completed with some bytes
appended to the buffer and an HTTP response code, or it raised
`pycurl.error(errCode)` after appending some bytes. -/
inductive CurlOutcome where
  | perform (appended : List Nat) (respCode : Nat)
  | curlFail (appended : List Nat) (errCode : Nat)
deriving DecidableEq

/-- Terminal outcome of `download`: the returned bytes, the uncaught
`MyHTTP404Exception`, the final `Exception("failed too often...")`, or a
re-raised non-transient `pycurl.error`. -/
inductive DownloadResult where
  | ok (body : List Nat)
  | http404
  | failedTooOften
  | curlRaise (errCode : Nat)
deriving DecidableEq

/-- The retry loop of `download`, from attempt `rn` with `fuel`
attempts remaining (`fuel = maxretries - rn` at every call), carrying the
buffer `f`, the trace of resume offsets (`f.tell()` at the start of each
executed attempt) and the backoff sleeps performed so far. -/
def downloadFrom (env : Nat → CurlOutcome) :
    Nat → Nat → List Nat → List Nat → List Nat → DownloadResult × List Nat × List Nat
  | _, 0, _, resumes, sleeps => (.failedTooOften, resumes, sleeps)
  | rn, fuel + 1, buf, resumes, sleeps =>
    let rs := resumes ++ [buf.length]
    match env rn with
    | .perform app code =>
      let buf2 := buf ++ app
      if code = 404 then (.http404, rs, sleeps)
      else if code = 200 ∨ code = 206 then (.ok buf2, rs, sleeps)
      else if fuel = 0 then (.failedTooOften, rs, sleeps)
      else downloadFrom env (rn + 1) fuel [] rs (sleeps ++ [4 ^ (rn + 1)])
    | .curlFail app code =>
      let buf2 := buf ++ app
      if code ∈ transientCodes then
        if fuel = 0 then (.failedTooOften, rs, sleeps)
        else downloadFrom env (rn + 1) fuel buf2 rs (sleeps ++ [4 ^ (rn + 1)])
      else (.curlRaise code, rs, sleeps)

def download (env : Nat → CurlOutcome) : DownloadResult × List Nat × List Nat :=
  downloadFrom env 0 maxretries [] [] []

theorem downloadFrom_resumes_extend (env : Nat → CurlOutcome) :
    ∀ fuel rn buf r s, ∃ rest, (downloadFrom env rn fuel buf r s).2.1 = r ++ rest := by
  intro fuel
  induction fuel with
  | zero => intro rn buf r s; exact ⟨[], by simp [downloadFrom]⟩
  | succ fuel ih =>
    intro rn buf r s
    cases h : env rn with
    | perform app code =>
      by_cases h404 : code = 404
      · exact ⟨[buf.length], by simp [downloadFrom, h, h404]⟩
      · by_cases hok : code = 200 ∨ code = 206
        · exact ⟨[buf.length], by simp [downloadFrom, h, h404, hok]⟩
        · by_cases hf : fuel = 0
          · exact ⟨[buf.length], by simp [downloadFrom, h, h404, hok, hf]⟩
          · obtain ⟨rest, hrest⟩ := ih (rn + 1) [] (r ++ [buf.length]) (s ++ [4 ^ (rn + 1)])
            refine ⟨[buf.length] ++ rest, ?_⟩
            simp only [downloadFrom, h, if_neg h404, if_neg hok, if_neg hf]
            rw [hrest, List.append_assoc]
    | curlFail app code =>
      by_cases htr : code ∈ transientCodes
      · by_cases hf : fuel = 0
        · exact ⟨[buf.length], by simp [downloadFrom, h, htr, hf]⟩
        · obtain ⟨rest, hrest⟩ := ih (rn + 1) (buf ++ app) (r ++ [buf.length]) (s ++ [4 ^ (rn + 1)])
          refine ⟨[buf.length] ++ rest, ?_⟩
          simp only [downloadFrom, h]
          simp only [if_pos htr, if_neg hf]
          rw [hrest, List.append_assoc]
      · exact ⟨[buf.length], by simp [downloadFrom, h, htr]⟩

theorem downloadFrom_first_resume (env : Nat → CurlOutcome) (rn fuel : Nat)
    (buf r s : List Nat) :
    ∃ rest, (downloadFrom env rn (fuel + 1) buf r s).2.1 = r ++ buf.length :: rest := by
  cases h : env rn with
  | perform app code =>
    by_cases h404 : code = 404
    · exact ⟨[], by simp [downloadFrom, h, h404]⟩
    · by_cases hok : code = 200 ∨ code = 206
      · exact ⟨[], by simp [downloadFrom, h, h404, hok]⟩
      · by_cases hf : fuel = 0
        · exact ⟨[], by simp [downloadFrom, h, h404, hok, hf]⟩
        · obtain ⟨rest, hrest⟩ :=
            downloadFrom_resumes_extend env fuel (rn + 1) [] (r ++ [buf.length]) (s ++ [4 ^ (rn + 1)])
          refine ⟨rest, ?_⟩
          simp only [downloadFrom, h, if_neg h404, if_neg hok, if_neg hf]
          rw [hrest, List.append_assoc]
          rfl
  | curlFail app code =>
    by_cases htr : code ∈ transientCodes
    · by_cases hf : fuel = 0
      · exact ⟨[], by simp [downloadFrom, h, htr, hf]⟩
      · obtain ⟨rest, hrest⟩ :=
          downloadFrom_resumes_extend env fuel (rn + 1) (buf ++ app) (r ++ [buf.length]) (s ++ [4 ^ (rn + 1)])
        refine ⟨rest, ?_⟩
        simp only [downloadFrom, h, if_pos htr, if_neg hf]
        rw [hrest, List.append_assoc]
        rfl
    · exact ⟨[], by simp [downloadFrom, h, htr]⟩

/-- One transient-error step: the buffer (with the bytes received before
the error) is kept and handed to the next attempt, after the backoff sleep. -/
theorem downloadFrom_transient_step (env : Nat → CurlOutcome) (rn fuel : Nat)
    (buf r s app : List Nat) (code : Nat)
    (h : env rn = .curlFail app code) (htr : code ∈ transientCodes) :
    downloadFrom env rn (fuel + 2) buf r s =
      downloadFrom env (rn + 1) (fuel + 1) (buf ++ app) (r ++ [buf.length]) (s ++ [4 ^ (rn + 1)]) := by
  show downloadFrom env rn ((fuel + 1) + 1) buf r s = _
  simp [downloadFrom, h, htr]

/-- One generic-HTTP-error step: the buffer is discarded (`f = BytesIO()`),
so the next attempt starts from offset zero. -/
theorem downloadFrom_httpErr_step (env : Nat → CurlOutcome) (rn fuel : Nat)
    (buf r s app : List Nat) (code : Nat)
    (h : env rn = .perform app code) (h404 : code ≠ 404) (h200 : code ≠ 200) (h206 : code ≠ 206) :
    downloadFrom env rn (fuel + 2) buf r s =
      downloadFrom env (rn + 1) (fuel + 1) [] (r ++ [buf.length]) (s ++ [4 ^ (rn + 1)]) := by
  show downloadFrom env rn ((fuel + 1) + 1) buf r s = _
  have hok : ¬(code = 200 ∨ code = 206) := by tauto
  simp [downloadFrom, h, h404, hok]

/-- The backoff schedule `4 ** (retrynum + 1)` starting at attempt `rn`,
for a given number of sleeps. -/
def backoffSched (rn : Nat) : Nat → List Nat
  | 0 => []
  | n + 1 => 4 ^ (rn + 1) :: backoffSched (rn + 1) n

theorem downloadFrom_attempts_le (env : Nat → CurlOutcome) :
    ∀ fuel rn buf r s, (downloadFrom env rn fuel buf r s).2.1.length ≤ r.length + fuel := by
  intro fuel
  induction fuel with
  | zero => intro rn buf r s; simp [downloadFrom]
  | succ fuel ih =>
    intro rn buf r s
    cases h : env rn with
    | perform app code =>
      by_cases h404 : code = 404
      · simp [downloadFrom, h, h404]
      · by_cases hok : code = 200 ∨ code = 206
        · simp [downloadFrom, h, h404, hok]
        · by_cases hf : fuel = 0
          · simp [downloadFrom, h, h404, hok, hf]
          · simp only [downloadFrom, h, if_neg h404, if_neg hok, if_neg hf]
            have := ih (rn + 1) [] (r ++ [buf.length]) (s ++ [4 ^ (rn + 1)])
            simp at this ⊢
            omega
    | curlFail app code =>
      by_cases htr : code ∈ transientCodes
      · by_cases hf : fuel = 0
        · simp [downloadFrom, h, htr, hf]
        · simp only [downloadFrom, h, if_pos htr, if_neg hf]
          have := ih (rn + 1) (buf ++ app) (r ++ [buf.length]) (s ++ [4 ^ (rn + 1)])
          simp at this ⊢
          omega
      · simp [downloadFrom, h, htr]

/-- When every attempt fails with a generic (non-404, non-success) HTTP
status, the loop runs through all its fuel, sleeping between consecutive
attempts, and ends in the final generic failure. -/
theorem downloadFrom_allHttpErr (env : Nat → CurlOutcome) (app : Nat → List Nat)
    (code : Nat → Nat) :
    ∀ fuel rn buf r s,
      (∀ k, rn ≤ k → k < rn + fuel →
        env k = .perform (app k) (code k) ∧ code k ≠ 404 ∧ code k ≠ 200 ∧ code k ≠ 206) →
      (downloadFrom env rn fuel buf r s).1 = .failedTooOften ∧
      (downloadFrom env rn fuel buf r s).2.1.length = r.length + fuel ∧
      (downloadFrom env rn fuel buf r s).2.2.length = s.length + (fuel - 1) := by
  intro fuel
  induction fuel with
  | zero => intro rn buf r s _; simp [downloadFrom]
  | succ fuel ih =>
    intro rn buf r s hall
    obtain ⟨henv, h404, h200, h206⟩ := hall rn (Nat.le_refl rn) (by omega)
    have hok : ¬(code rn = 200 ∨ code rn = 206) := by tauto
    by_cases hf : fuel = 0
    · subst hf
      simp [downloadFrom, henv, h404, hok]
    · simp only [downloadFrom, henv, if_neg h404, if_neg hok, if_neg hf]
      obtain ⟨h1, h2, h3⟩ := ih (rn + 1) [] (r ++ [buf.length]) (s ++ [4 ^ (rn + 1)])
        (fun k hk1 hk2 => hall k (by omega) (by omega))
      refine ⟨h1, ?_, ?_⟩
      · rw [h2]; simp only [List.length_append, List.length_cons, List.length_nil]; omega
      · rw [h3]; simp only [List.length_append, List.length_cons, List.length_nil]; omega

/-- When every attempt fails with a transient pycurl error, the loop runs
through all its fuel with the backoff schedule `4 ** (retrynum + 1)` and
ends in the final generic failure. -/
theorem downloadFrom_allTransient (env : Nat → CurlOutcome) (app : Nat → List Nat)
    (code : Nat → Nat) :
    ∀ fuel rn buf r s,
      (∀ k, rn ≤ k → k < rn + fuel →
        env k = .curlFail (app k) (code k) ∧ code k ∈ transientCodes) →
      (downloadFrom env rn fuel buf r s).1 = .failedTooOften ∧
      (downloadFrom env rn fuel buf r s).2.1.length = r.length + fuel ∧
      (downloadFrom env rn fuel buf r s).2.2 = s ++ backoffSched rn (fuel - 1) := by
  intro fuel
  induction fuel with
  | zero => intro rn buf r s _; simp [downloadFrom, backoffSched]
  | succ fuel ih =>
    intro rn buf r s hall
    obtain ⟨henv, htr⟩ := hall rn (Nat.le_refl rn) (by omega)
    by_cases hf : fuel = 0
    · subst hf
      simp [downloadFrom, henv, htr, backoffSched]
    · simp only [downloadFrom, henv, if_pos htr, if_neg hf]
      have := ih (rn + 1) (buf ++ app rn) (r ++ [buf.length]) (s ++ [4 ^ (rn + 1)])
        (fun k hk1 hk2 => hall k (by omega) (by omega))
      obtain ⟨h1, h2, h3⟩ := this
      refine ⟨h1, ?_, ?_⟩
      · simp at h2 ⊢; omega
      · rw [h3]
        obtain ⟨n, hn⟩ : ∃ n, fuel = n + 1 := ⟨fuel - 1, by omega⟩
        subst hn
        simp [backoffSched]

/-- C4: `download` raises the terminal 404 absence error (`MyHTTP404Exception`)
immediately upon an HTTP 404 response, with no retry and no backoff sleep;
any other non-200/206 status is retried up to the same 10-attempt ceiling
and, on exhaustion, ends in the terminal generic failure
(`Exception("failed too often...")`), which is distinct from the 404 error. -/
theorem download_404_terminal_other_retried :
    (∀ (env : Nat → CurlOutcome) (rn fuel : Nat) (buf r s app : List Nat),
      env rn = .perform app 404 →
      downloadFrom env rn (fuel + 1) buf r s = (.http404, r ++ [buf.length], s)) ∧
    (∀ (env : Nat → CurlOutcome) (app : Nat → List Nat) (code : Nat → Nat),
      (∀ k, k < maxretries →
        env k = .perform (app k) (code k) ∧ code k ≠ 404 ∧ code k ≠ 200 ∧ code k ≠ 206) →
      (download env).1 = .failedTooOften ∧
      (download env).2.1.length = maxretries ∧
      (download env).2.2.length = maxretries - 1) ∧
    DownloadResult.failedTooOften ≠ DownloadResult.http404 := by
  refine ⟨?_, ?_, by decide⟩
  · intro env rn fuel buf r s app h
    simp [downloadFrom, h]
  · intro env app code hall
    have := downloadFrom_allHttpErr env app code maxretries 0 [] [] []
      (fun k hk1 hk2 => hall k (by omega))
    simpa [download] using this

def env404 : Nat → CurlOutcome := fun _ => .perform [] 404

def env500 : Nat → CurlOutcome := fun _ => .perform [] 500

theorem download_404_terminal_other_retried_witness :
    downloadFrom env404 0 10 [] [] [] = (.http404, [0], []) ∧
    ((download env500).1 = .failedTooOften ∧
      (download env500).2.1.length = maxretries ∧
      (download env500).2.2.length = maxretries - 1) :=
  ⟨download_404_terminal_other_retried.1 env404 0 9 [] [] [] [] rfl,
   download_404_terminal_other_retried.2.1 env500 (fun _ => []) (fun _ => 500)
     (fun k _ => ⟨rfl, show (500 : Nat) ≠ 404 by decide, show (500 : Nat) ≠ 200 by decide,
       show (500 : Nat) ≠ 206 by decide⟩)⟩

/-- C5: after a transient error (partial file, connection failure, or
timeout-abort) the retry keeps the buffered bytes and the next attempt
starts at the byte offset already buffered (including the bytes that
arrived before the error); after a generic HTTP-status error the buffer is
replaced by a fresh `BytesIO()`, so the next attempt starts at offset 0. -/
theorem download_resume_vs_restart (env : Nat → CurlOutcome) (rn fuel : Nat)
    (buf r s app : List Nat) (code : Nat) :
    (env rn = .curlFail app code → code ∈ transientCodes →
      ∃ rest, (downloadFrom env rn (fuel + 2) buf r s).2.1 =
        (r ++ [buf.length, (buf ++ app).length]) ++ rest) ∧
    (env rn = .perform app code → code ≠ 404 → code ≠ 200 → code ≠ 206 →
      ∃ rest, (downloadFrom env rn (fuel + 2) buf r s).2.1 =
        (r ++ [buf.length, 0]) ++ rest) := by
  constructor
  · intro h htr
    rw [downloadFrom_transient_step env rn fuel buf r s app code h htr]
    obtain ⟨rest, hrest⟩ :=
      downloadFrom_first_resume env (rn + 1) fuel (buf ++ app) (r ++ [buf.length]) (s ++ [4 ^ (rn + 1)])
    exact ⟨rest, by rw [hrest]; simp⟩
  · intro h h404 h200 h206
    rw [downloadFrom_httpErr_step env rn fuel buf r s app code h h404 h200 h206]
    obtain ⟨rest, hrest⟩ :=
      downloadFrom_first_resume env (rn + 1) fuel [] (r ++ [buf.length]) (s ++ [4 ^ (rn + 1)])
    exact ⟨rest, by rw [hrest]; simp⟩

def envMixed : Nat → CurlOutcome := fun n =>
  if n = 0 then .curlFail [1, 2] errPartFile else .perform [3] 500

theorem download_resume_vs_restart_witness :
    (∃ rest, (downloadFrom envMixed 0 2 [] [] []).2.1 = ([] ++ [0, 2]) ++ rest) ∧
    (∃ rest, (downloadFrom envMixed 1 2 [1, 2] [0] []).2.1 = ([0] ++ [2, 0]) ++ rest) :=
  ⟨(download_resume_vs_restart envMixed 0 0 [] [] [] [1, 2] errPartFile).1 rfl (by decide),
   (download_resume_vs_restart envMixed 1 0 [1, 2] [0] [] [3] 500).2 rfl
     (by decide) (by decide) (by decide)⟩

/-- C8: `download` never executes more than 10 attempts; when every attempt
fails with a retried transient error (connection failure, timeout-abort,
partial file), exactly 10 attempts run, separated by the backoff sleeps
`4 ** (retrynum + 1)`, i.e. 4, 16, 64, 256, ... seconds. -/
theorem download_ceiling_and_backoff :
    (∀ env : Nat → CurlOutcome, (download env).2.1.length ≤ maxretries) ∧
    (∀ (env : Nat → CurlOutcome) (app : Nat → List Nat) (code : Nat → Nat),
      (∀ k, k < maxretries → env k = .curlFail (app k) (code k) ∧ code k ∈ transientCodes) →
      (download env).1 = .failedTooOften ∧
      (download env).2.1.length = maxretries ∧
      (download env).2.2 = backoffSched 0 (maxretries - 1)) ∧
    backoffSched 0 (maxretries - 1) =
      [4, 16, 64, 256, 1024, 4096, 16384, 65536, 262144] := by
  refine ⟨?_, ?_, by decide⟩
  · intro env
    have := downloadFrom_attempts_le env maxretries 0 [] [] []
    simpa [download] using this
  · intro env app code hall
    have := downloadFrom_allTransient env app code maxretries 0 [] [] []
      (fun k hk1 hk2 => hall k (by omega))
    simpa [download] using this

def envConnFail : Nat → CurlOutcome := fun _ => .curlFail [] errCouldntConnect

theorem download_ceiling_and_backoff_witness :
    (download envConnFail).1 = .failedTooOften ∧
    (download envConnFail).2.1.length = maxretries ∧
    (download envConnFail).2.2 = backoffSched 0 (maxretries - 1) :=
  download_ceiling_and_backoff.2.1 envConnFail (fun _ => []) (fun _ => errCouldntConnect)
    (fun k _ => ⟨rfl, show errCouldntConnect ∈ transientCodes by decide⟩)

/-! ### `get_file_info` (requests-based content inspector) -/

/-- Exceptions that can escape the endpoint handlers: `KeyError(k)`, the
dateutil parse error raised on an unparseable `Last-Modified` value, and
`IndexError` (from `line[-1]` on an all-whitespace rsync line). -/
inductive PyExc where
  | keyError (k : String)
  | parserError
  | indexError
deriving DecidableEq

/-- The `Last-Modified` header of a response: absent, present but not
parseable by `dateutil.parser.parse`, or parseable to a timestamp. -/
inductive LastModified where
  | missing
  | unparseable
  | parsed (t : Timestamp)
deriving DecidableEq

structure HttpResponse where
  status_code : Nat
  content : List Nat
  lastModified : LastModified
deriving DecidableEq

/-- What `get_response(url)` (requests.get with its own connection-error
retry loop) produced: an exhausted `ConnectionError`, or a response. -/
inductive FetchOutcome where
  | connectionError
  | response (r : HttpResponse)
deriving DecidableEq

/-- `requests.Response.ok`: true unless the status is a 4xx/5xx. -/
def respOk (c : Nat) : Bool := !(400 ≤ c && c < 600)

/-- The `info` dict built by `get_file_info` (plus the `file` key that
`get_src` adds before storing it); a missing key is `none`. -/
structure InfoDict where
  status_code : Option Nat
  hash : Option String
  first_seen : Option String
  size : Option Nat
  file : Option String
deriving DecidableEq

def emptyInfo : InfoDict := ⟨none, none, none, none, none⟩

/-- Python truthiness of `d.get("hash")`: the key is present and the hex
digest is a non-empty string. -/
def InfoDict.hashTruthy (d : InfoDict) : Bool :=
  match d.hash with
  | some h => h ≠ ""
  | none => false

/-- Python truthiness of the dict itself (non-empty, i.e. some key present). -/
def InfoDict.truthy (d : InfoDict) : Bool :=
  d.status_code.isSome || d.hash.isSome || d.first_seen.isSome || d.size.isSome || d.file.isSome

/-- `get_file_info(url)`: `{}` on an exhausted connection error; only
`status_code` on a non-ok response; the full record on an ok response —
but `resp.headers["last-modified"]` raises `KeyError` when the header is
missing and `parsedate` raises when it is unparseable, and neither is
caught, so the whole call raises.  `hashFn` abstracts the md5 hex digest
of the streamed content. -/
def get_file_info (hashFn : List Nat → String) (o : FetchOutcome) : Except PyExc InfoDict :=
  match o with
  | .connectionError => .ok emptyInfo
  | .response r =>
    if respOk r.status_code then
      match r.lastModified with
      | .parsed t =>
        .ok ⟨some r.status_code, some (hashFn r.content), some (formatTimestamp t),
          some r.content.length, none⟩
      | .missing => .error (.keyError "last-modified")
      | .unparseable => .error .parserError
    else .ok ⟨some r.status_code, none, none, none, none⟩

/-! ### `get_src` (source endpoint) -/

/-- The inner candidate loop of `get_src` for one role: probe each
filename in order, stop at the first whose `get_file_info` has a truthy
hash (adding `res["file"] = f`), return `none` if no candidate matched. -/
def resolveRole (hashFn : List Nat → String) (probe : String → FetchOutcome) :
    List String → Except PyExc (Option InfoDict)
  | [] => .ok none
  | f :: fs =>
    match get_file_info hashFn (probe f) with
    | .error e => .error e
    | .ok d =>
      if d.hashTruthy then .ok (some { d with file := some f })
      else resolveRole hashFn probe fs

def dscFiles (n v : String) : List String := [n ++ "_" ++ v ++ ".dsc"]

def nativeFiles (n v : String) : List String := [n ++ "_" ++ v ++ ".tar.xz"]

def debianFiles (n v : String) : List String := [n ++ "_" ++ v ++ ".debian.tar.xz"]

/-- `srcpkgver.split('-')[0]`. -/
def upstreamVersion (v : String) : String := ⟨takeUntilDash v.data⟩

def origFiles (n v : String) : List String :=
  ["gz", "xz", "bz2"].map (fun ext => n ++ "_" ++ upstreamVersion v ++ ".orig.tar." ++ ext)

/-- `pool/main/{pfx}/{srcpkgname}` where `pfx` is the first four characters
for `lib*` names and the first character otherwise. -/
def poolPath (n : String) : String :=
  "pool/main/" ++ (if pyStartsWith n "lib" then pyTake n 4 else pyTake n 1) ++ "/" ++ n

/-- One `{name, archive_name, path, first_seen, size}` record of the
`fileinfo` mapping. -/
structure FileRecord where
  name : String
  archive_name : String
  path : String
  first_seen : String
  size : Nat
deriving DecidableEq

structure SrcEnvelope where
  package : String
  version : String
  result : List String
  fileinfo : List (String × List FileRecord)
deriving DecidableEq

structure BinEnvelope where
  binary_version : String
  binary : String
  result : List (String × String)
  fileinfo : List (String × List FileRecord)
deriving DecidableEq

/-- The body of a `Response`: the initial `{}` (serialising to an empty
body), the raw upstream payload bytes, or an assembled JSON envelope. -/
inductive Body where
  | emptyBody
  | raw (b : List Nat)
  | srcEnv (e : SrcEnvelope)
  | binEnv (e : BinEnvelope)
deriving DecidableEq

/-- Python truthiness of `api_result` at the `if not api_result:` check. -/
def Body.truthy : Body → Bool
  | .emptyBody => false
  | .raw b => !b.isEmpty
  | _ => true

structure Resp where
  body : Body
  status : Nat
deriving DecidableEq

/-- Insertion into a Python dict: replace the value in place if the key
exists, else append the new key at the end. -/
def assocInsert (m : List (String × List FileRecord)) (k : String) (v : List FileRecord) :
    List (String × List FileRecord) :=
  match m with
  | [] => [(k, v)]
  | (k1, v1) :: rest => if k1 = k then (k, v) :: rest else (k1, v1) :: assocInsert rest k v

/-- Build one `fileinfo` record from a stored role dict (the `[k]` lookups
raise `KeyError` when the key is absent). -/
def mkFileRecord (d : InfoDict) (p : String) : Except PyExc FileRecord :=
  match d.file with
  | none => .error (.keyError "file")
  | some nm =>
    match d.first_seen with
    | none => .error (.keyError "first_seen")
    | some fs =>
      match d.size with
      | none => .error (.keyError "size")
      | some sz => .ok ⟨nm, "debian", p, fs, sz⟩

/-- The three-entry (dsc/debian/orig) envelope of `get_src`; the `fileinfo`
dict literal lists the dsc, orig and debian records in that order. -/
def mkEnvelope3 (n v p : String) (dscD debD origD : InfoDict) : Except PyExc SrcEnvelope :=
  match dscD.hash with
  | none => .error (.keyError "hash")
  | some h1 =>
    match debD.hash with
    | none => .error (.keyError "hash")
    | some h2 =>
      match origD.hash with
      | none => .error (.keyError "hash")
      | some h3 =>
        match mkFileRecord dscD ("/" ++ p) with
        | .error e => .error e
        | .ok r1 =>
          match mkFileRecord origD ("/" ++ p) with
          | .error e => .error e
          | .ok r3 =>
            match mkFileRecord debD ("/" ++ p) with
            | .error e => .error e
            | .ok r2 =>
              .ok ⟨n, v, [h1, h2, h3],
                assocInsert (assocInsert (assocInsert [] h1 [r1]) h3 [r3]) h2 [r2]⟩

/-- The two-entry (dsc/native) envelope of `get_src`. -/
def mkEnvelope2 (n v p : String) (dscD natD : InfoDict) : Except PyExc SrcEnvelope :=
  match dscD.hash with
  | none => .error (.keyError "hash")
  | some h1 =>
    match natD.hash with
    | none => .error (.keyError "hash")
    | some h2 =>
      match mkFileRecord dscD ("/" ++ p) with
      | .error e => .error e
      | .ok r1 =>
        match mkFileRecord natD ("/" ++ p) with
        | .error e => .error e
        | .ok r2 => .ok ⟨n, v, [h1, h2], assocInsert (assocInsert [] h1 [r1]) h2 [r2]⟩

/-- The fallback (candidate-enumeration) part of `get_src`, entered when
`api_result` is falsy; `api0`/`status0` are the values `api_result` and
`status_code` hold at that point, returned unchanged when no envelope is
assembled.  The roles are probed in the dict order `dsc`, `native`,
`debian`, `orig`; note that the `info` dict is initialised without a
`native` key, so `info["native"]` raises `KeyError` when the native
candidate did not resolve. -/
def srcFallback (hashFn : List Nat → String) (probe : String → FetchOutcome)
    (n v : String) (api0 : Body) (status0 : Nat) : Except PyExc Resp :=
  match resolveRole hashFn probe (dscFiles n v) with
  | .error e => .error e
  | .ok dscOpt =>
    match resolveRole hashFn probe (nativeFiles n v) with
    | .error e => .error e
    | .ok natOpt =>
      match resolveRole hashFn probe (debianFiles n v) with
      | .error e => .error e
      | .ok debOpt =>
        match resolveRole hashFn probe (origFiles n v) with
        | .error e => .error e
        | .ok origOpt =>
          let dscD := dscOpt.getD emptyInfo
          let debD := debOpt.getD emptyInfo
          let origD := origOpt.getD emptyInfo
          if dscD.hashTruthy then
            if debD.hashTruthy && origD.hashTruthy then
              match dscD.status_code with
              | none => .error (.keyError "status_code")
              | some sc =>
                match mkEnvelope3 n v (poolPath n) dscD debD origD with
                | .error e => .error e
                | .ok e => .ok ⟨.srcEnv e, sc⟩
            else
              match natOpt with
              | none => .error (.keyError "native")
              | some natD =>
                if natD.truthy then
                  match dscD.status_code with
                  | none => .error (.keyError "status_code")
                  | some sc =>
                    match mkEnvelope2 n v (poolPath n) dscD natD with
                    | .error e => .error e
                    | .ok e => .ok ⟨.srcEnv e, sc⟩
                else .ok ⟨api0, status0⟩
          else .ok ⟨api0, status0⟩

/-- Environment of one `get_src` request: the upstream `download` outcome
(`some payload`, or `none` when it raised) and the per-candidate-filename
fetch outcomes of the mirror probes. -/
structure SrcEnv where
  upstream : Option (List Nat)
  probe : String → FetchOutcome

/-- `get_src(srcpkgname, srcpkgver)`: adopt a truthy upstream payload
verbatim with status 200; otherwise run the fallback with the current
`api_result`/`status_code` values. -/
def get_src (hashFn : List Nat → String) (env : SrcEnv) (n v : String) : Except PyExc Resp :=
  match env.upstream with
  | some payload =>
    if (Body.raw payload).truthy then .ok ⟨.raw payload, 200⟩
    else srcFallback hashFn env.probe n v (.raw payload) 200
  | none => srcFallback hashFn env.probe n v .emptyBody 404

/-! ### `get_bin` (binary endpoint) -/

/-- The mirror base URL prepended to each listed file. -/
def binBase : String := "https://deb.qubes-os.org/"

/-- Suffixes accepted by `get_repo_files` (the source checks `.deb` twice). -/
def repoSuffixes : List String := [".deb", ".dsc", ".deb", ".tar.xz", ".tar.bz2", ".tar.gz"]

/-- `get_repo_files()`: keep the last whitespace-separated token of each
rsync listing line when it starts with `r4.1` and ends with one of the
accepted suffixes; `line[-1]` on an all-whitespace line raises
`IndexError`. -/
def get_repo_files : List String → Except PyExc (List String)
  | [] => .ok []
  | line :: rest =>
    match (pyTokens line).getLast? with
    | none => .error .indexError
    | some tok =>
      match get_repo_files rest with
      | .error e => .error e
      | .ok files =>
        if pyStartsWith tok "r4.1" then
          if repoSuffixes.any (fun suf => pyEndsWith tok suf) then .ok (tok :: files)
          else .ok files
        else .ok files

def debFileName (n v arch : String) : String := n ++ "_" ++ v ++ "_" ++ arch ++ ".deb"

/-- The `data[arch]` entry: the `info` dict at the time of the break, the
deb filename and the probed URL. -/
structure BinData where
  info : InfoDict
  file : String
  url : String
deriving DecidableEq

/-- The inner loop of `get_bin` for one architecture: walk the repo file
list; on each basename match, overwrite the running `info` with
`get_file_info` of that URL and stop at the first truthy hash.  Returns
the final value of the `info` variable together with the found entry. -/
def binScan (hashFn : List Nat → String) (probe : String → FetchOutcome) (deb : String) :
    List String → InfoDict → Except PyExc (InfoDict × Option BinData)
  | [], info => .ok (info, none)
  | f :: fs, info =>
    if basename f = deb then
      match get_file_info hashFn (probe f) with
      | .error e => .error e
      | .ok i =>
        if i.hashTruthy then .ok (i, some ⟨i, deb, binBase ++ f⟩)
        else binScan hashFn probe deb fs i
    else binScan hashFn probe deb fs info

/-- The `result` list comprehension: one `{hash, architecture}` entry per
resolved architecture, in dict order. -/
def binResultList : List (String × BinData) → Except PyExc (List (String × String))
  | [] => .ok []
  | (arch, bd) :: rest =>
    match bd.info.hash with
    | none => .error (.keyError "hash")
    | some h =>
      match binResultList rest with
      | .error e => .error e
      | .ok r => .ok ((h, arch) :: r)

/-- The `fileinfo.update(...)` loop: for each resolved architecture insert
`hash -> [{name, archive_name, path, first_seen, size}]`, where `path` is
the URL with the base URL removed (`url.replace(base_url, '')`). -/
def binFileinfoMap : List (String × BinData) → List (String × List FileRecord) →
    Except PyExc (List (String × List FileRecord))
  | [], acc => .ok acc
  | (_, bd) :: rest, acc =>
    match bd.info.hash with
    | none => .error (.keyError "hash")
    | some h =>
      match bd.info.first_seen with
      | none => .error (.keyError "first_seen")
      | some fs =>
        match bd.info.size with
        | none => .error (.keyError "size")
        | some sz =>
          binFileinfoMap rest
            (assocInsert acc h [⟨bd.file, "debian", pyReplaceDrop bd.url binBase, fs, sz⟩])

/-- The `data` dict at the end of the architecture loops: the amd64 entry
(if resolved) followed by the `all` entry (if resolved), in insertion
order. -/
def binDataList (d1 d2 : Option BinData) : List (String × BinData) :=
  (match d1 with | some b => [("amd64", b)] | none => []) ++
  (match d2 with | some b => [("all", b)] | none => [])

/-- The fallback part of `get_bin`.  Note `status_code = info["status_code"]`
reads the loop variable `info` left over from the last `get_file_info`
call of the architecture loops, not the info of a resolved architecture. -/
def binFallback (hashFn : List Nat → String) (lines : List String)
    (probe : String → FetchOutcome) (n v : String) (api0 : Body) (status0 : Nat) :
    Except PyExc Resp :=
  match get_repo_files lines with
  | .error e => .error e
  | .ok files =>
    match binScan hashFn probe (debFileName n v "amd64") files emptyInfo with
    | .error e => .error e
    | .ok (info1, d1) =>
      match binScan hashFn probe (debFileName n v "all") files info1 with
      | .error e => .error e
      | .ok (info2, d2) =>
        let data := binDataList d1 d2
        if data.isEmpty then .ok ⟨api0, status0⟩
        else
          match info2.status_code with
          | none => .error (.keyError "status_code")
          | some sc =>
            match binResultList data with
            | .error e => .error e
            | .ok r =>
              match binFileinfoMap data [] with
              | .error e => .error e
              | .ok fi => .ok ⟨.binEnv ⟨v, n, r, fi⟩, sc⟩

/-- Environment of one `get_bin` request: the upstream `download` outcome,
the raw rsync listing lines, and the per-mirror-path fetch outcomes. -/
structure BinEnv where
  upstream : Option (List Nat)
  repoLines : List String
  probe : String → FetchOutcome

/-- `get_bin(pkg_name, pkg_ver)`. -/
def get_bin (hashFn : List Nat → String) (env : BinEnv) (n v : String) : Except PyExc Resp :=
  match env.upstream with
  | some payload =>
    if (Body.raw payload).truthy then .ok ⟨.raw payload, 200⟩
    else binFallback hashFn env.repoLines env.probe n v (.raw payload) 200
  | none => binFallback hashFn env.repoLines env.probe n v .emptyBody 404

/-! ### Concrete test environments -/

/-- A stand-in for the md5 hex digest: distinct non-empty strings for the
distinct contents used in the concrete environments. -/
def hashLen : List Nat → String := fun b => "h" ++ decRepr b.length

def ts0 : Timestamp := ⟨2021, 1, 2, 3, 4, 5⟩

/-- A successful fetch of `c` with a parseable `Last-Modified` header. -/
def okResp (c : List Nat) : FetchOutcome := .response ⟨200, c, .parsed ts0⟩

/-- No upstream record; only the `.dsc` and the native tarball exist. -/
def envDscNative : SrcEnv :=
  ⟨none, fun f =>
    if f = "foo_1.0-1.dsc" then okResp [1]
    else if f = "foo_1.0-1.tar.xz" then okResp [1, 2]
    else .connectionError⟩

/-- No upstream record; only the `.dsc` exists. -/
def envDscOnly : SrcEnv :=
  ⟨none, fun f => if f = "foo_1.0-1.dsc" then okResp [1] else .connectionError⟩

/-- No upstream record; `.dsc`, the debian tarball and the native tarball
exist, but no orig tarball. -/
def envMixedNative : SrcEnv :=
  ⟨none, fun f =>
    if f = "foo_1.0-1.dsc" then okResp [1]
    else if f = "foo_1.0-1.tar.xz" then okResp [1, 2]
    else if f = "foo_1.0-1.debian.tar.xz" then okResp [1, 2, 3]
    else .connectionError⟩

/-- No upstream record; the `.dsc` fetch succeeds but the response has no
`Last-Modified` header. -/
def envBadHeader : SrcEnv :=
  ⟨none, fun f =>
    if f = "foo_1.0-1.dsc" then .response ⟨200, [1], .missing⟩ else .connectionError⟩

/-- The upstream probe succeeds with an empty payload; no mirror candidate
resolves. -/
def envEmptyUpstream : SrcEnv := ⟨some [], fun _ => .connectionError⟩

/-- The upstream probe succeeds with a non-empty payload. -/
def envRawUpstream : SrcEnv := ⟨some [9, 9], fun _ => .connectionError⟩

/-- No upstream record; `.dsc`, debian and orig tarballs all exist. -/
def envFullSrc : SrcEnv :=
  ⟨none, fun f =>
    if f = "foo_1.0-1.dsc" then okResp [1]
    else if f = "foo_1.0-1.debian.tar.xz" then okResp [1, 2]
    else if f = "foo_1.0.orig.tar.gz" then okResp [1, 2, 3]
    else .connectionError⟩

/-- Binary query: the amd64 deb resolves; the `all` deb is listed on the
mirror but its fetch returns HTTP 404 — so the final `info` loop variable
holds `{"status_code": 404}`. -/
def envBinStale : BinEnv :=
  ⟨none,
   ["x r4.1/f/foo_1.0-1_amd64.deb", "x r4.1/f/foo_1.0-1_all.deb"],
   fun f =>
     if f = "r4.1/f/foo_1.0-1_amd64.deb" then okResp [1]
     else if f = "r4.1/f/foo_1.0-1_all.deb" then .response ⟨404, [], .missing⟩
     else .connectionError⟩

/-- Binary query: only the amd64 deb is listed, and it resolves. -/
def envBinOk : BinEnv :=
  ⟨none, ["x r4.1/f/foo_1.0-1_amd64.deb"],
   fun f => if f = "r4.1/f/foo_1.0-1_amd64.deb" then okResp [1] else .connectionError⟩

/-- Binary query whose upstream probe succeeds with an empty payload. -/
def envBinEmptyUpstream : BinEnv := ⟨some [], [], fun _ => .connectionError⟩

/-! ### Claim theorems -/

/-- C1: with no upstream record, a `.dsc` plus native tarball (no
orig/debian split) yields the 2-entry partial envelope tagging the dsc and
native hashes with a success status; but when the `.dsc` resolves and
neither the orig/debian pair nor a native tarball resolves, `get_src` does
not return the claimed empty-body 404 — `info` was initialised without a
`"native"` key, so `elif info["native"]:` raises `KeyError('native')`
(an HTTP 500), which is the code bug this claim exposes. -/
theorem get_src_dsc_native_partial_and_missing_native_keyerror :
    get_src hashLen envDscNative "foo" "1.0-1" =
      .ok ⟨.srcEnv ⟨"foo", "1.0-1", ["h1", "h2"],
        [("h1", [⟨"foo_1.0-1.dsc", "debian", "/pool/main/f/foo", "20210102T030405Z", 1⟩]),
         ("h2", [⟨"foo_1.0-1.tar.xz", "debian", "/pool/main/f/foo", "20210102T030405Z", 2⟩])]⟩,
        200⟩ ∧
    resolveRole hashLen envDscOnly.probe (dscFiles "foo" "1.0-1") =
      .ok (some ⟨some 200, some "h1", some "20210102T030405Z", some 1, some "foo_1.0-1.dsc"⟩) ∧
    get_src hashLen envDscOnly "foo" "1.0-1" = .error (.keyError "native") :=
  ⟨rfl, rfl, rfl⟩

/-- C2 counterexample: the debian candidate resolves (and the orig one does
not), yet `get_src` still returns the native-tarball partial envelope —
the code only requires that debian and orig do not *both* resolve, so it
does mix a native result with a half-resolved orig/debian split. -/
theorem get_src_native_despite_debian_cex :
    resolveRole hashLen envMixedNative.probe (debianFiles "foo" "1.0-1") =
      .ok (some ⟨some 200, some "h3", some "20210102T030405Z", some 3,
        some "foo_1.0-1.debian.tar.xz"⟩) ∧
    (InfoDict.hashTruthy ⟨some 200, some "h3", some "20210102T030405Z", some 3,
        some "foo_1.0-1.debian.tar.xz"⟩) = true ∧
    get_src hashLen envMixedNative "foo" "1.0-1" =
      .ok ⟨.srcEnv ⟨"foo", "1.0-1", ["h1", "h2"],
        [("h1", [⟨"foo_1.0-1.dsc", "debian", "/pool/main/f/foo", "20210102T030405Z", 1⟩]),
         ("h2", [⟨"foo_1.0-1.tar.xz", "debian", "/pool/main/f/foo", "20210102T030405Z", 2⟩])]⟩,
        200⟩ :=
  ⟨rfl, rfl, rfl⟩

/-- C2 amended: the native-tarball partial envelope is returned whenever
the `.dsc` resolves, the debian and orig candidates do not *both* resolve,
and the native tarball resolves — including when exactly one of
debian/orig resolved. -/
theorem get_src_native_when_split_not_both (hashFn : List Nat → String) (env : SrcEnv)
    (n v : String) (sc scN szD szN : Nat) (hD hN fsD fsN fD fN : String)
    (debOpt origOpt : Option InfoDict)
    (hup : env.upstream = none)
    (hdsc : resolveRole hashFn env.probe (dscFiles n v) =
      .ok (some ⟨some sc, some hD, some fsD, some szD, some fD⟩))
    (hhD : hD ≠ "")
    (hnat : resolveRole hashFn env.probe (nativeFiles n v) =
      .ok (some ⟨some scN, some hN, some fsN, some szN, some fN⟩))
    (hdeb : resolveRole hashFn env.probe (debianFiles n v) = .ok debOpt)
    (horig : resolveRole hashFn env.probe (origFiles n v) = .ok origOpt)
    (hnotboth : ((debOpt.getD emptyInfo).hashTruthy &&
      (origOpt.getD emptyInfo).hashTruthy) = false) :
    get_src hashFn env n v =
      .ok ⟨.srcEnv ⟨n, v, [hD, hN],
        assocInsert (assocInsert [] hD [⟨fD, "debian", "/" ++ poolPath n, fsD, szD⟩]) hN
          [⟨fN, "debian", "/" ++ poolPath n, fsN, szN⟩]⟩, sc⟩ := by
  simp only [get_src, hup]
  simp only [srcFallback, hdsc, hnat, hdeb, horig, hnotboth]
  simp [InfoDict.hashTruthy, InfoDict.truthy, hhD, mkEnvelope2, mkFileRecord]

theorem get_src_native_when_split_not_both_witness :
    get_src hashLen envMixedNative "foo" "1.0-1" =
      .ok ⟨.srcEnv ⟨"foo", "1.0-1", ["h1", "h2"],
        assocInsert (assocInsert []
          "h1" [⟨"foo_1.0-1.dsc", "debian", "/" ++ poolPath "foo", "20210102T030405Z", 1⟩])
          "h2" [⟨"foo_1.0-1.tar.xz", "debian", "/" ++ poolPath "foo", "20210102T030405Z", 2⟩]⟩,
        200⟩ :=
  get_src_native_when_split_not_both hashLen envMixedNative "foo" "1.0-1" 200 200 1 2
    "h1" "h2" "20210102T030405Z" "20210102T030405Z" "foo_1.0-1.dsc" "foo_1.0-1.tar.xz"
    (some ⟨some 200, some "h3", some "20210102T030405Z", some 3, some "foo_1.0-1.debian.tar.xz"⟩)
    none rfl rfl (by decide) rfl rfl rfl (by decide)

/-- C6 counterexample: the `.dsc` candidate's fetch succeeds (status 200)
but the response carries no `Last-Modified` header; `get_file_info` is
claimed to confine the failure to this candidate, but instead the whole
`get_src` resolution raises `KeyError('last-modified')` — no response is
produced at all, so the enclosing resolution does not continue. -/
theorem get_src_header_failure_cex :
    envBadHeader.probe "foo_1.0-1.dsc" = .response ⟨200, [1], .missing⟩ ∧
    respOk 200 = true ∧
    get_src hashLen envBadHeader "foo" "1.0-1" = .error (.keyError "last-modified") :=
  ⟨rfl, rfl, rfl⟩

/-- C6 amended: when the first candidate probed (the `.dsc`) fetches
successfully but its last-modification header is missing or unparseable,
the error raised inside `get_file_info` is not caught anywhere: `get_src`
itself raises (`KeyError` resp. the dateutil parse error), aborting the
entire resolution instead of treating the candidate as absent. -/
theorem get_src_header_failure_aborts (hashFn : List Nat → String) (env : SrcEnv)
    (n v : String) (r : HttpResponse)
    (hup : env.upstream = none)
    (hpr : env.probe (n ++ "_" ++ v ++ ".dsc") = .response r)
    (hok : respOk r.status_code = true) :
    (r.lastModified = .missing → get_src hashFn env n v = .error (.keyError "last-modified")) ∧
    (r.lastModified = .unparseable → get_src hashFn env n v = .error .parserError) := by
  constructor
  · intro hm
    simp [get_src, hup, srcFallback, resolveRole, dscFiles, get_file_info, hpr, hok, hm]
  · intro hm
    simp [get_src, hup, srcFallback, resolveRole, dscFiles, get_file_info, hpr, hok, hm]

theorem get_src_header_failure_aborts_witness :
    get_src hashLen envBadHeader "foo" "1.0-1" = .error (.keyError "last-modified") :=
  (get_src_header_failure_aborts hashLen envBadHeader "foo" "1.0-1" ⟨200, [1], .missing⟩
    rfl rfl rfl).1 rfl

/-- C7: a populated, internally consistent envelope *can* be returned with
a non-success status: when the amd64 deb resolves but a later-scanned
candidate's fetch fails, `status_code = info["status_code"]` reads the
leaked loop variable of the *last* `get_file_info` call, here 404 — the
response pairs a populated envelope with status 404, contradicting the
claim; the claim reflects the intent and this leak is the code bug. -/
theorem get_bin_envelope_with_404_status :
    get_bin hashLen envBinStale "foo" "1.0-1" =
      .ok ⟨.binEnv ⟨"1.0-1", "foo", [("h1", "amd64")],
        [("h1", [⟨"foo_1.0-1_amd64.deb", "debian", "r4.1/f/foo_1.0-1_amd64.deb",
          "20210102T030405Z", 1⟩])]⟩, 404⟩ ∧
    [("h1", "amd64")] ≠ ([] : List (String × String)) ∧ (404 : Nat) ≠ 200 :=
  ⟨rfl, by decide, by decide⟩

/-- C10 counterexample: the upstream probe succeeds with an empty payload
and no candidate resolves; `get_src` then returns that empty payload as
the response body, and with the probe's success status 200 — so the empty
upstream success payload *is* returned verbatim as the final result. -/
theorem get_src_empty_payload_returned_cex :
    envEmptyUpstream.upstream = some [] ∧
    get_src hashLen envEmptyUpstream "foo" "1.0-1" = .ok ⟨.raw [], 200⟩ :=
  ⟨rfl, rfl⟩

/-- C10 amended: emptiness of the upstream payload (not only probe
failure) sends both endpoints into candidate enumeration — `get_src` and
`get_bin` on an empty successful payload behave exactly as the fallback
state machine — while a non-empty payload is adopted verbatim with status
200 and no enumeration; however, when the fallback then assembles no
envelope, the empty payload is returned with the probe's 200 status. -/
theorem empty_payload_triggers_fallback (hashFn : List Nat → String)
    (senv : SrcEnv) (benv : BinEnv) (n v n2 v2 : String) (p : List Nat) :
    (senv.upstream = some [] →
      get_src hashFn senv n v = srcFallback hashFn senv.probe n v (.raw []) 200) ∧
    (benv.upstream = some [] →
      get_bin hashFn benv n2 v2 =
        binFallback hashFn benv.repoLines benv.probe n2 v2 (.raw []) 200) ∧
    (senv.upstream = some p → p ≠ [] → get_src hashFn senv n v = .ok ⟨.raw p, 200⟩) := by
  refine ⟨?_, ?_, ?_⟩
  · intro h
    simp [get_src, h, Body.truthy]
  · intro h
    simp [get_bin, h, Body.truthy]
  · intro h hp
    simp [get_src, h, Body.truthy, hp]

theorem empty_payload_triggers_fallback_witness :
    (get_src hashLen envEmptyUpstream "foo" "1.0-1" =
      srcFallback hashLen envEmptyUpstream.probe "foo" "1.0-1" (.raw []) 200) ∧
    (get_bin hashLen envBinEmptyUpstream "foo" "1.0-1" =
      binFallback hashLen envBinEmptyUpstream.repoLines envBinEmptyUpstream.probe
        "foo" "1.0-1" (.raw []) 200) ∧
    get_src hashLen envRawUpstream "foo" "1.0-1" = .ok ⟨.raw [9, 9], 200⟩ :=
  ⟨(empty_payload_triggers_fallback hashLen envEmptyUpstream envBinEmptyUpstream
      "foo" "1.0-1" "foo" "1.0-1" []).1 rfl,
   (empty_payload_triggers_fallback hashLen envEmptyUpstream envBinEmptyUpstream
      "foo" "1.0-1" "foo" "1.0-1" []).2.1 rfl,
   (empty_payload_triggers_fallback hashLen envRawUpstream envBinEmptyUpstream
      "foo" "1.0-1" "foo" "1.0-1" [9, 9]).2.2 rfl (by decide)⟩

/-! ### Structural lemmas about the envelope builders -/

theorem mem_keys_assocInsert (m : List (String × List FileRecord)) (k : String)
    (v : List FileRecord) (x : String) :
    x ∈ (assocInsert m k v).map Prod.fst ↔ x = k ∨ x ∈ m.map Prod.fst := by
  induction m with
  | nil => simp [assocInsert]
  | cons p rest ih =>
    obtain ⟨k1, v1⟩ := p
    by_cases hk : k1 = k
    · subst hk
      simp [assocInsert]
    · simp only [assocInsert, if_neg hk, List.map_cons, List.mem_cons, ih]
      tauto

theorem mem_assocInsert (m : List (String × List FileRecord)) (k : String)
    (v : List FileRecord) :
    ∀ p ∈ assocInsert m k v, p = (k, v) ∨ p ∈ m := by
  induction m with
  | nil => intro p h; simpa [assocInsert] using h
  | cons q rest ih =>
    intro p h
    obtain ⟨k1, v1⟩ := q
    by_cases hk : k1 = k
    · subst hk
      rw [assocInsert, if_pos rfl] at h
      rcases List.mem_cons.mp h with h1 | h1
      · exact Or.inl h1
      · exact Or.inr (List.mem_cons_of_mem _ h1)
    · rw [assocInsert, if_neg hk] at h
      rcases List.mem_cons.mp h with h1 | h1
      · exact Or.inr (by simp [h1])
      · rcases ih p h1 with h2 | h2
        · exact Or.inl h2
        · exact Or.inr (List.mem_cons_of_mem _ h2)

theorem mkFileRecord_inv (d : InfoDict) (p : String) (r : FileRecord)
    (h : mkFileRecord d p = .ok r) :
    r.archive_name = "debian" ∧ r.path = p ∧ d.file = some r.name ∧
    d.first_seen = some r.first_seen ∧ d.size = some r.size := by
  unfold mkFileRecord at h
  split at h
  · exact absurd h (by simp)
  · split at h
    · exact absurd h (by simp)
    · split at h
      · exact absurd h (by simp)
      · cases h
        refine ⟨rfl, rfl, ?_, ?_, ?_⟩ <;> assumption

theorem mkEnvelope3_inv (n v p : String) (d1 d2 d3 : InfoDict) (e : SrcEnvelope)
    (h : mkEnvelope3 n v p d1 d2 d3 = .ok e) :
    ∃ h1 h2 h3 r1 r2 r3,
      d1.hash = some h1 ∧ d2.hash = some h2 ∧ d3.hash = some h3 ∧
      mkFileRecord d1 ("/" ++ p) = .ok r1 ∧ mkFileRecord d3 ("/" ++ p) = .ok r3 ∧
      mkFileRecord d2 ("/" ++ p) = .ok r2 ∧
      e = ⟨n, v, [h1, h2, h3],
        assocInsert (assocInsert (assocInsert [] h1 [r1]) h3 [r3]) h2 [r2]⟩ := by
  unfold mkEnvelope3 at h
  split at h
  · exact absurd h (by simp)
  · split at h
    · exact absurd h (by simp)
    · split at h
      · exact absurd h (by simp)
      · split at h
        · exact absurd h (by simp)
        · split at h
          · exact absurd h (by simp)
          · split at h
            · exact absurd h (by simp)
            · cases h
              exact ⟨_, _, _, _, _, _, by assumption, by assumption, by assumption,
                by assumption, by assumption, by assumption, rfl⟩

theorem mkEnvelope2_inv (n v p : String) (d1 d2 : InfoDict) (e : SrcEnvelope)
    (h : mkEnvelope2 n v p d1 d2 = .ok e) :
    ∃ h1 h2 r1 r2,
      d1.hash = some h1 ∧ d2.hash = some h2 ∧
      mkFileRecord d1 ("/" ++ p) = .ok r1 ∧ mkFileRecord d2 ("/" ++ p) = .ok r2 ∧
      e = ⟨n, v, [h1, h2], assocInsert (assocInsert [] h1 [r1]) h2 [r2]⟩ := by
  unfold mkEnvelope2 at h
  split at h
  · exact absurd h (by simp)
  · split at h
    · exact absurd h (by simp)
    · split at h
      · exact absurd h (by simp)
      · split at h
        · exact absurd h (by simp)
        · cases h
          exact ⟨_, _, _, _, by assumption, by assumption, by assumption, by assumption, rfl⟩

/-- An `InfoDict` with a truthy hash can only come out of `get_file_info`
on an ok response with a parseable `Last-Modified` header, and then has
exactly the shape built there. -/
theorem get_file_info_hashTruthy_inv (hashFn : List Nat → String) (o : FetchOutcome)
    (d : InfoDict) (h : get_file_info hashFn o = .ok d) (ht : d.hashTruthy = true) :
    ∃ r t, o = .response r ∧ respOk r.status_code = true ∧ r.lastModified = .parsed t ∧
      d = ⟨some r.status_code, some (hashFn r.content), some (formatTimestamp t),
        some r.content.length, none⟩ := by
  cases o with
  | connectionError =>
    rw [get_file_info] at h
    cases h
    exact absurd ht (by simp [emptyInfo, InfoDict.hashTruthy])
  | response r =>
    rw [get_file_info] at h
    by_cases hok : respOk r.status_code = true
    · rw [if_pos hok] at h
      cases hlm : r.lastModified with
      | parsed t =>
        rw [hlm] at h
        cases h
        exact ⟨r, t, rfl, hok, hlm, rfl⟩
      | missing => rw [hlm] at h; exact absurd h (by simp)
      | unparseable => rw [hlm] at h; exact absurd h (by simp)
    · rw [if_neg hok] at h
      cases h
      exact absurd ht (by simp [InfoDict.hashTruthy])

/-- A stored role dict can only come from a probed candidate filename,
and has the `get_file_info` shape with the `file` key added. -/
theorem resolveRole_sound (hashFn : List Nat → String) (probe : String → FetchOutcome) :
    ∀ (fs : List String) (d : InfoDict), resolveRole hashFn probe fs = .ok (some d) →
      ∃ f ∈ fs, ∃ r t, probe f = .response r ∧ respOk r.status_code = true ∧
        r.lastModified = .parsed t ∧
        d = ⟨some r.status_code, some (hashFn r.content), some (formatTimestamp t),
          some r.content.length, some f⟩ := by
  intro fs
  induction fs with
  | nil => intro d h; exact absurd h (by simp [resolveRole])
  | cons f fs ih =>
    intro d h
    rw [resolveRole] at h
    cases hg : get_file_info hashFn (probe f) with
    | error e => rw [hg] at h; exact absurd h (by simp)
    | ok d0 =>
      rw [hg] at h
      by_cases ht : d0.hashTruthy = true
      · simp only [ht, if_true] at h
        cases h
        obtain ⟨r, t, hr, hok, hlm, hshape⟩ := get_file_info_hashTruthy_inv hashFn _ d0 hg ht
        subst hshape
        exact ⟨f, List.mem_cons_self f fs, r, t, hr, hok, hlm, rfl⟩
      · simp only [ht, if_false, Bool.false_eq_true] at h
        obtain ⟨f2, hf2, rest⟩ := ih d h
        exact ⟨f2, List.mem_cons_of_mem _ hf2, rest⟩

/-- Inversion of the fallback of `get_src`: an assembled source envelope
comes either from the dsc/debian/orig branch or from the dsc/native
branch, with the stored role dicts feeding the envelope builder. -/
theorem srcFallback_srcEnv_inv (hashFn : List Nat → String) (probe : String → FetchOutcome)
    (n v : String) (api0 : Body) (st0 : Nat) (e : SrcEnvelope) (sc : Nat)
    (hapi : ∀ e2, api0 ≠ .srcEnv e2)
    (h : srcFallback hashFn probe n v api0 st0 = .ok ⟨.srcEnv e, sc⟩) :
    (∃ dscD debD origD,
      resolveRole hashFn probe (dscFiles n v) = .ok (some dscD) ∧
      resolveRole hashFn probe (debianFiles n v) = .ok (some debD) ∧
      resolveRole hashFn probe (origFiles n v) = .ok (some origD) ∧
      dscD.status_code = some sc ∧
      mkEnvelope3 n v (poolPath n) dscD debD origD = .ok e) ∨
    (∃ dscD natD,
      resolveRole hashFn probe (dscFiles n v) = .ok (some dscD) ∧
      resolveRole hashFn probe (nativeFiles n v) = .ok (some natD) ∧
      dscD.status_code = some sc ∧
      mkEnvelope2 n v (poolPath n) dscD natD = .ok e) := by
  rw [srcFallback] at h
  cases h1 : resolveRole hashFn probe (dscFiles n v) with
  | error e1 => rw [h1] at h; exact absurd h (by simp)
  | ok dscOpt =>
  rw [h1] at h
  cases h2 : resolveRole hashFn probe (nativeFiles n v) with
  | error e1 => rw [h2] at h; exact absurd h (by simp)
  | ok natOpt =>
  rw [h2] at h
  cases h3 : resolveRole hashFn probe (debianFiles n v) with
  | error e1 => rw [h3] at h; exact absurd h (by simp)
  | ok debOpt =>
  rw [h3] at h
  cases h4 : resolveRole hashFn probe (origFiles n v) with
  | error e1 => rw [h4] at h; exact absurd h (by simp)
  | ok origOpt =>
  rw [h4] at h
  by_cases hd : (dscOpt.getD emptyInfo).hashTruthy = true
  case neg =>
    simp only [hd, if_false, Bool.false_eq_true] at h
    cases h
    exact absurd rfl (hapi e)
  case pos =>
  cases dscOpt with
  | none => exact absurd hd (by simp [emptyInfo, InfoDict.hashTruthy])
  | some dscD =>
  simp only [Option.getD_some] at h hd
  simp only [hd, if_true] at h
  by_cases hb : ((debOpt.getD emptyInfo).hashTruthy && (origOpt.getD emptyInfo).hashTruthy) = true
  case pos =>
    simp only [hb, if_true] at h
    obtain ⟨hdt, hot⟩ := Bool.and_eq_true_iff.mp hb
    cases debOpt with
    | none => exact absurd hdt (by simp [emptyInfo, InfoDict.hashTruthy])
    | some debD =>
    cases origOpt with
    | none => exact absurd hot (by simp [emptyInfo, InfoDict.hashTruthy])
    | some origD =>
    simp only [Option.getD_some] at h
    cases hst : dscD.status_code with
    | none => rw [hst] at h; exact absurd h (by simp)
    | some sc2 =>
    rw [hst] at h
    cases hm : mkEnvelope3 n v (poolPath n) dscD debD origD with
    | error e1 => rw [hm] at h; exact absurd h (by simp)
    | ok e2 =>
    rw [hm] at h
    simp only [Except.ok.injEq, Resp.mk.injEq, Body.srcEnv.injEq] at h
    obtain ⟨he, hsc⟩ := h
    subst he
    subst hsc
    exact Or.inl ⟨dscD, debD, origD, rfl, rfl, rfl, hst, hm⟩
  case neg =>
    simp only [hb, if_false, Bool.false_eq_true] at h
    cases natOpt with
    | none => exact absurd h (by simp)
    | some natD =>
    by_cases htn : natD.truthy = true
    case neg =>
      simp only [htn, if_false, Bool.false_eq_true] at h
      cases h
      exact absurd rfl (hapi e)
    case pos =>
    simp only [htn, if_true] at h
    cases hst : dscD.status_code with
    | none => rw [hst] at h; exact absurd h (by simp)
    | some sc2 =>
    rw [hst] at h
    cases hm : mkEnvelope2 n v (poolPath n) dscD natD with
    | error e1 => rw [hm] at h; exact absurd h (by simp)
    | ok e2 =>
    rw [hm] at h
    simp only [Except.ok.injEq, Resp.mk.injEq, Body.srcEnv.injEq] at h
    obtain ⟨he, hsc⟩ := h
    subst he
    subst hsc
    exact Or.inr ⟨dscD, natD, rfl, rfl, hst, hm⟩

/-- Inversion of `get_src`: an assembled source envelope always comes
from the fallback. -/
theorem get_src_srcEnv_inv (hashFn : List Nat → String) (env : SrcEnv) (n v : String)
    (e : SrcEnvelope) (sc : Nat)
    (h : get_src hashFn env n v = .ok ⟨.srcEnv e, sc⟩) :
    (∃ dscD debD origD,
      resolveRole hashFn env.probe (dscFiles n v) = .ok (some dscD) ∧
      resolveRole hashFn env.probe (debianFiles n v) = .ok (some debD) ∧
      resolveRole hashFn env.probe (origFiles n v) = .ok (some origD) ∧
      dscD.status_code = some sc ∧
      mkEnvelope3 n v (poolPath n) dscD debD origD = .ok e) ∨
    (∃ dscD natD,
      resolveRole hashFn env.probe (dscFiles n v) = .ok (some dscD) ∧
      resolveRole hashFn env.probe (nativeFiles n v) = .ok (some natD) ∧
      dscD.status_code = some sc ∧
      mkEnvelope2 n v (poolPath n) dscD natD = .ok e) := by
  rw [get_src] at h
  cases hup : env.upstream with
  | none =>
    rw [hup] at h
    exact srcFallback_srcEnv_inv hashFn env.probe n v _ _ e sc (by intro e2; simp) h
  | some payload =>
    rw [hup] at h
    by_cases ht : (Body.raw payload).truthy = true
    · simp only [ht, if_true] at h
      exact absurd h (by simp)
    · simp only [ht, if_false, Bool.false_eq_true] at h
      exact srcFallback_srcEnv_inv hashFn env.probe n v _ _ e sc (by intro e2; simp) h

/-- A found `data[arch]` entry can only come from a listed file whose
basename matches the deb name and whose probe yielded a truthy hash. -/
theorem binScan_sound (hashFn : List Nat → String) (probe : String → FetchOutcome)
    (deb : String) :
    ∀ (files : List String) (info i2 : InfoDict) (bd : BinData),
      binScan hashFn probe deb files info = .ok (i2, some bd) →
      ∃ f ∈ files, basename f = deb ∧ ∃ r t, probe f = .response r ∧
        respOk r.status_code = true ∧ r.lastModified = .parsed t ∧
        bd = ⟨⟨some r.status_code, some (hashFn r.content), some (formatTimestamp t),
          some r.content.length, none⟩, deb, binBase ++ f⟩ := by
  intro files
  induction files with
  | nil => intro info i2 bd h; exact absurd h (by simp [binScan])
  | cons f fs ih =>
    intro info i2 bd h
    rw [binScan] at h
    by_cases hbn : basename f = deb
    · simp only [hbn, if_true] at h
      cases hg : get_file_info hashFn (probe f) with
      | error e => rw [hg] at h; exact absurd h (by simp)
      | ok i =>
        rw [hg] at h
        by_cases ht : i.hashTruthy = true
        · simp only [ht, if_true] at h
          simp only [Except.ok.injEq, Prod.mk.injEq, Option.some.injEq] at h
          obtain ⟨hi2, hbd⟩ := h
          obtain ⟨r, t, hr, hok, hlm, hshape⟩ := get_file_info_hashTruthy_inv hashFn _ i hg ht
          subst hshape
          exact ⟨f, List.mem_cons_self f fs, hbn, r, t, hr, hok, hlm, hbd.symm⟩
        · simp only [ht, if_false, Bool.false_eq_true] at h
          obtain ⟨f2, hf2, rest⟩ := ih i i2 bd h
          exact ⟨f2, List.mem_cons_of_mem _ hf2, rest⟩
    · simp only [hbn, if_false] at h
      obtain ⟨f2, hf2, rest⟩ := ih info i2 bd h
      exact ⟨f2, List.mem_cons_of_mem _ hf2, rest⟩

/-- Each entry of the `data` dict is the amd64 or the `all` find. -/
theorem mem_binDataList (d1 d2 : Option BinData) (p : String × BinData)
    (h : p ∈ binDataList d1 d2) :
    (p.1 = "amd64" ∧ d1 = some p.2) ∨ (p.1 = "all" ∧ d2 = some p.2) := by
  cases d1 with
  | none =>
    cases d2 with
    | none => exact absurd (show p ∈ ([] : List (String × BinData)) from h) (List.not_mem_nil p)
    | some b =>
      rcases List.mem_singleton.mp (show p ∈ [("all", b)] from h) with rfl
      exact Or.inr ⟨rfl, rfl⟩
  | some a =>
    cases d2 with
    | none =>
      rcases List.mem_singleton.mp (show p ∈ [("amd64", a)] from h) with rfl
      exact Or.inl ⟨rfl, rfl⟩
    | some b =>
      rcases List.mem_cons.mp (show p ∈ [("amd64", a), ("all", b)] from h) with rfl | h3
      · exact Or.inl ⟨rfl, rfl⟩
      · rcases List.mem_singleton.mp h3 with rfl
        exact Or.inr ⟨rfl, rfl⟩

/-- Every record of the assembled bin `fileinfo` mapping either was in the
accumulator or is the record built for some `data` entry. -/
theorem binFileinfoMap_records :
    ∀ (data : List (String × BinData)) (acc m : List (String × List FileRecord)),
      binFileinfoMap data acc = .ok m →
      ∀ kv ∈ m, ∀ rec ∈ kv.2,
        (∃ kv2 ∈ acc, rec ∈ kv2.2) ∨
        ∃ p ∈ data, ∃ fs sz, p.2.info.first_seen = some fs ∧ p.2.info.size = some sz ∧
          rec = ⟨p.2.file, "debian", pyReplaceDrop p.2.url binBase, fs, sz⟩ := by
  intro data
  induction data with
  | nil =>
    intro acc m h kv hkv rec hrec
    rw [binFileinfoMap] at h
    cases h
    exact Or.inl ⟨kv, hkv, hrec⟩
  | cons p rest ih =>
    intro acc m h kv hkv rec hrec
    obtain ⟨arch, bd⟩ := p
    rw [binFileinfoMap] at h
    cases hh : bd.info.hash with
    | none => rw [hh] at h; exact absurd h (by simp)
    | some hv =>
    rw [hh] at h
    cases hf : bd.info.first_seen with
    | none => rw [hf] at h; exact absurd h (by simp)
    | some fsv =>
    rw [hf] at h
    cases hs : bd.info.size with
    | none => rw [hs] at h; exact absurd h (by simp)
    | some szv =>
    rw [hs] at h
    rcases ih _ m h kv hkv rec hrec with hacc | ⟨p2, hp2, rest2⟩
    · obtain ⟨kv2, hkv2, hrec2⟩ := hacc
      rcases mem_assocInsert acc hv _ kv2 hkv2 with heq | hmem
      · subst heq
        rcases List.mem_singleton.mp hrec2 with rfl
        exact Or.inr ⟨(arch, bd), List.mem_cons_self _ _, fsv, szv, hf, hs, rfl⟩
      · exact Or.inl ⟨kv2, hmem, hrec2⟩
    · exact Or.inr ⟨p2, List.mem_cons_of_mem _ hp2, rest2⟩

/-- The hash keys of the assembled bin `fileinfo` are exactly the hashes
of the `result` list (plus whatever was already in the accumulator). -/
theorem binMaps_keys :
    ∀ (data : List (String × BinData)) (acc m : List (String × List FileRecord))
      (r : List (String × String)),
      binFileinfoMap data acc = .ok m → binResultList data = .ok r →
      ∀ x, x ∈ m.map Prod.fst ↔ x ∈ acc.map Prod.fst ∨ x ∈ r.map Prod.fst := by
  intro data
  induction data with
  | nil =>
    intro acc m r h hr x
    rw [binFileinfoMap] at h
    rw [binResultList] at hr
    cases h
    cases hr
    simp
  | cons p rest ih =>
    intro acc m r h hr x
    obtain ⟨arch, bd⟩ := p
    rw [binFileinfoMap] at h
    rw [binResultList] at hr
    cases hh : bd.info.hash with
    | none => rw [hh] at h; exact absurd h (by simp)
    | some hv =>
    rw [hh] at h hr
    cases hf : bd.info.first_seen with
    | none => rw [hf] at h; exact absurd h (by simp)
    | some fsv =>
    rw [hf] at h
    cases hs : bd.info.size with
    | none => rw [hs] at h; exact absurd h (by simp)
    | some szv =>
    rw [hs] at h
    cases hrr : binResultList rest with
    | error e => rw [hrr] at hr; exact absurd hr (by simp)
    | ok r2 =>
    rw [hrr] at hr
    cases hr
    have := ih _ m r2 h hrr x
    rw [this]
    rw [mem_keys_assocInsert]
    simp only [List.map_cons, List.mem_cons]
    tauto

/-- Inversion of the fallback of `get_bin`: an assembled binary envelope
carries the `result` list and `fileinfo` mapping built from the same
`data` entries, and the status read from the leaked `info` variable. -/
theorem binFallback_binEnv_inv (hashFn : List Nat → String) (lines : List String)
    (probe : String → FetchOutcome) (n v : String) (api0 : Body) (st0 : Nat)
    (e : BinEnvelope) (sc : Nat)
    (hapi : ∀ e2, api0 ≠ .binEnv e2)
    (h : binFallback hashFn lines probe n v api0 st0 = .ok ⟨.binEnv e, sc⟩) :
    ∃ files info1 info2 d1 d2 r fi,
      get_repo_files lines = .ok files ∧
      binScan hashFn probe (debFileName n v "amd64") files emptyInfo = .ok (info1, d1) ∧
      binScan hashFn probe (debFileName n v "all") files info1 = .ok (info2, d2) ∧
      info2.status_code = some sc ∧
      binResultList (binDataList d1 d2) = .ok r ∧
      binFileinfoMap (binDataList d1 d2) [] = .ok fi ∧
      e = ⟨v, n, r, fi⟩ := by
  rw [binFallback] at h
  cases hrf : get_repo_files lines with
  | error e1 => rw [hrf] at h; exact absurd h (by simp)
  | ok files =>
  simp only [hrf] at h
  cases hs1 : binScan hashFn probe (debFileName n v "amd64") files emptyInfo with
  | error e1 => simp only [hs1] at h; exact absurd h (by simp)
  | ok p1 =>
  obtain ⟨info1, d1⟩ := p1
  simp only [hs1] at h
  cases hs2 : binScan hashFn probe (debFileName n v "all") files info1 with
  | error e1 => simp only [hs2] at h; exact absurd h (by simp)
  | ok p2 =>
  obtain ⟨info2, d2⟩ := p2
  simp only [hs2] at h
  by_cases hde : (binDataList d1 d2).isEmpty = true
  case pos =>
    simp only [hde, if_true] at h
    cases h
    exact absurd rfl (hapi e)
  case neg =>
  simp only [hde, if_false, Bool.false_eq_true] at h
  cases hst : info2.status_code with
  | none => rw [hst] at h; exact absurd h (by simp)
  | some sc2 =>
  rw [hst] at h
  cases hbr : binResultList (binDataList d1 d2) with
  | error e1 => rw [hbr] at h; exact absurd h (by simp)
  | ok r =>
  rw [hbr] at h
  cases hbf : binFileinfoMap (binDataList d1 d2) [] with
  | error e1 => rw [hbf] at h; exact absurd h (by simp)
  | ok fi =>
  rw [hbf] at h
  simp only [Except.ok.injEq, Resp.mk.injEq, Body.binEnv.injEq] at h
  obtain ⟨he, hsc⟩ := h
  subst he
  subst hsc
  exact ⟨files, info1, info2, d1, d2, r, fi, rfl, hs1, hs2, hst, hbr, hbf, rfl⟩

/-- Inversion of `get_bin`: an assembled binary envelope always comes
from the fallback. -/
theorem get_bin_binEnv_inv (hashFn : List Nat → String) (env : BinEnv) (n v : String)
    (e : BinEnvelope) (sc : Nat)
    (h : get_bin hashFn env n v = .ok ⟨.binEnv e, sc⟩) :
    ∃ files info1 info2 d1 d2 r fi,
      get_repo_files env.repoLines = .ok files ∧
      binScan hashFn env.probe (debFileName n v "amd64") files emptyInfo = .ok (info1, d1) ∧
      binScan hashFn env.probe (debFileName n v "all") files info1 = .ok (info2, d2) ∧
      info2.status_code = some sc ∧
      binResultList (binDataList d1 d2) = .ok r ∧
      binFileinfoMap (binDataList d1 d2) [] = .ok fi ∧
      e = ⟨v, n, r, fi⟩ := by
  rw [get_bin] at h
  cases hup : env.upstream with
  | none =>
    rw [hup] at h
    exact binFallback_binEnv_inv hashFn env.repoLines env.probe n v _ _ e sc
      (by intro e2; simp) h
  | some payload =>
    rw [hup] at h
    by_cases ht : (Body.raw payload).truthy = true
    · simp only [ht, if_true] at h
      exact absurd h (by simp)
    · simp only [ht, if_false, Bool.false_eq_true] at h
      exact binFallback_binEnv_inv hashFn env.repoLines env.probe n v _ _ e sc
        (by intro e2; simp) h

/-- C3: in every fallback-assembled envelope of `get_src` and `get_bin`,
the set of hashes of the ordered `result` list equals the set of keys of
the `fileinfo` mapping — no orphan keys in either direction. -/
theorem resolution_no_orphan_hashes (hashFn : List Nat → String) (senv : SrcEnv)
    (benv : BinEnv) (n v n2 v2 : String) (e : SrcEnvelope) (e2 : BinEnvelope)
    (sc sc2 : Nat) :
    (get_src hashFn senv n v = .ok ⟨.srcEnv e, sc⟩ →
      ∀ x, x ∈ e.result ↔ x ∈ e.fileinfo.map Prod.fst) ∧
    (get_bin hashFn benv n2 v2 = .ok ⟨.binEnv e2, sc2⟩ →
      ∀ x, x ∈ e2.result.map Prod.fst ↔ x ∈ e2.fileinfo.map Prod.fst) := by
  constructor
  · intro h x
    rcases get_src_srcEnv_inv hashFn senv n v e sc h with
      ⟨dscD, debD, origD, _, _, _, _, hm⟩ | ⟨dscD, natD, _, _, _, hm⟩
    · obtain ⟨h1, h2, h3, r1, r2, r3, _, _, _, _, _, _, he⟩ :=
        mkEnvelope3_inv n v (poolPath n) dscD debD origD e hm
      subst he
      simp only [mem_keys_assocInsert]
      simp only [List.map_nil, List.mem_cons, List.mem_singleton, List.not_mem_nil]
      tauto
    · obtain ⟨h1, h2, r1, r2, _, _, _, _, he⟩ :=
        mkEnvelope2_inv n v (poolPath n) dscD natD e hm
      subst he
      simp only [mem_keys_assocInsert]
      simp only [List.map_nil, List.mem_cons, List.mem_singleton, List.not_mem_nil]
      tauto
  · intro h x
    obtain ⟨files, i1, i2, d1, d2, r, fi, _, _, _, _, hbr, hbf, he⟩ :=
      get_bin_binEnv_inv hashFn benv n2 v2 e2 sc2 h
    subst he
    have := binMaps_keys (binDataList d1 d2) [] fi r hbf hbr x
    simpa using this.symm

def eFullSrc : SrcEnvelope :=
  ⟨"foo", "1.0-1", ["h1", "h2", "h3"],
   [("h1", [⟨"foo_1.0-1.dsc", "debian", "/pool/main/f/foo", "20210102T030405Z", 1⟩]),
    ("h3", [⟨"foo_1.0.orig.tar.gz", "debian", "/pool/main/f/foo", "20210102T030405Z", 3⟩]),
    ("h2", [⟨"foo_1.0-1.debian.tar.xz", "debian", "/pool/main/f/foo", "20210102T030405Z", 2⟩])]⟩

def eBinOk : BinEnvelope :=
  ⟨"1.0-1", "foo", [("h1", "amd64")],
   [("h1", [⟨"foo_1.0-1_amd64.deb", "debian", "r4.1/f/foo_1.0-1_amd64.deb",
     "20210102T030405Z", 1⟩])]⟩

theorem resolution_no_orphan_hashes_witness :
    ("h1" ∈ eFullSrc.result ↔ "h1" ∈ eFullSrc.fileinfo.map Prod.fst) ∧
    ("h1" ∈ eBinOk.result.map Prod.fst ↔ "h1" ∈ eBinOk.fileinfo.map Prod.fst) :=
  ⟨(resolution_no_orphan_hashes hashLen envFullSrc envBinOk "foo" "1.0-1" "foo" "1.0-1"
      eFullSrc eBinOk 200 200).1 rfl "h1",
   (resolution_no_orphan_hashes hashLen envFullSrc envBinOk "foo" "1.0-1" "foo" "1.0-1"
      eFullSrc eBinOk 200 200).2 rfl "h1"⟩

/-- C9 counterexample: in a `get_bin` fallback envelope the record's
`path` is the mirror-relative listing path (`url.replace(base_url, '')`),
which does not begin with `/` — here `r4.1/f/foo_1.0-1_amd64.deb` —
refuting the claim that fileinfo paths are root-relative with a leading
`/` in both endpoints' envelopes. -/
theorem get_bin_path_no_leading_slash_cex :
    get_bin hashLen envBinOk "foo" "1.0-1" = .ok ⟨.binEnv eBinOk, 200⟩ ∧
    eBinOk.fileinfo = [("h1", [⟨"foo_1.0-1_amd64.deb", "debian",
      "r4.1/f/foo_1.0-1_amd64.deb", "20210102T030405Z", 1⟩])] ∧
    pyStartsWith "r4.1/f/foo_1.0-1_amd64.deb" "/" = false :=
  ⟨rfl, rfl, rfl⟩

theorem pyStartsWith_slash (p : String) : pyStartsWith ("/" ++ p) "/" = true := by
  cases p with
  | mk l =>
    show listIsPrefix ['/'] ('/' :: l) = true
    simp [listIsPrefix]

/-- A record built from a dict stored by `resolveRole` carries the static
archive label, the path handed to the builder and a well-formed formatted
timestamp. -/
theorem record_from_role (hashFn : List Nat → String) (probe : String → FetchOutcome)
    (hw : ∀ f r t, probe f = .response r → r.lastModified = .parsed t → t.wf)
    (fs : List String) (d : InfoDict) (p : String) (rec : FileRecord)
    (hd : resolveRole hashFn probe fs = .ok (some d))
    (hr : mkFileRecord d p = .ok rec) :
    rec.archive_name = "debian" ∧ rec.path = p ∧
    ∃ t, t.wf ∧ rec.first_seen = formatTimestamp t ∧ rec.first_seen.length = 16 := by
  obtain ⟨f, hf, r, t, hpr, hok, hlm, hshape⟩ := resolveRole_sound hashFn probe fs d hd
  obtain ⟨ha, hp, hfile, hfs, hsz⟩ := mkFileRecord_inv d p rec hr
  have hwf := hw f r t hpr hlm
  subst hshape
  simp only [Option.some.injEq] at hfs
  refine ⟨ha, hp, t, hwf, hfs.symm, ?_⟩
  rw [hfs.symm]
  exact formatTimestamp_len t hwf

/-- C9 amended: in every fallback-produced envelope, each fileinfo
record's `first_seen` is the fixed-width 16-character
`%Y%m%dT%H%M%SZ` timestamp and its `archive_name` is the static label
`"debian"`, for both endpoints; the path is root-relative with a leading
`/` in `get_src` envelopes (in `get_bin` envelopes it is the
mirror-relative listing path without the leading `/`, as the
counterexample shows). -/
theorem fallback_record_fields (hashFn : List Nat → String) (senv : SrcEnv) (benv : BinEnv)
    (n v n2 v2 : String) (e : SrcEnvelope) (e2 : BinEnvelope) (sc sc2 : Nat)
    (hws : ∀ f r t, senv.probe f = .response r → r.lastModified = .parsed t → t.wf)
    (hwb : ∀ f r t, benv.probe f = .response r → r.lastModified = .parsed t → t.wf) :
    (get_src hashFn senv n v = .ok ⟨.srcEnv e, sc⟩ →
      ∀ kv ∈ e.fileinfo, ∀ rec ∈ kv.2,
        rec.archive_name = "debian" ∧ pyStartsWith rec.path "/" = true ∧
        ∃ t, t.wf ∧ rec.first_seen = formatTimestamp t ∧ rec.first_seen.length = 16) ∧
    (get_bin hashFn benv n2 v2 = .ok ⟨.binEnv e2, sc2⟩ →
      ∀ kv ∈ e2.fileinfo, ∀ rec ∈ kv.2,
        rec.archive_name = "debian" ∧
        ∃ t, t.wf ∧ rec.first_seen = formatTimestamp t ∧ rec.first_seen.length = 16) := by
  constructor
  · intro h kv hkv rec hrec
    rcases get_src_srcEnv_inv hashFn senv n v e sc h with
      ⟨dscD, debD, origD, hdsc, hdeb, horig, _, hm⟩ | ⟨dscD, natD, hdsc, hnat, _, hm⟩
    · obtain ⟨h1, h2, h3, r1, r2, r3, _, _, _, hr1, hr3, hr2, he⟩ :=
        mkEnvelope3_inv n v (poolPath n) dscD debD origD e hm
      subst he
      have hrole : rec = r1 ∨ rec = r2 ∨ rec = r3 := by
        rcases mem_assocInsert _ _ _ kv hkv with rfl | hkv2
        · rcases List.mem_singleton.mp hrec with rfl; exact Or.inr (Or.inl rfl)
        · rcases mem_assocInsert _ _ _ kv hkv2 with rfl | hkv3
          · rcases List.mem_singleton.mp hrec with rfl; exact Or.inr (Or.inr rfl)
          · rcases mem_assocInsert _ _ _ kv hkv3 with rfl | hkv4
            · rcases List.mem_singleton.mp hrec with rfl; exact Or.inl rfl
            · exact absurd hkv4 (List.not_mem_nil kv)
      rcases hrole with rfl | rfl | rfl
      · obtain ⟨ha, hp, hrest⟩ := record_from_role hashFn senv.probe hws _ dscD _ rec hdsc hr1
        exact ⟨ha, by rw [hp]; exact pyStartsWith_slash _, hrest⟩
      · obtain ⟨ha, hp, hrest⟩ := record_from_role hashFn senv.probe hws _ debD _ rec hdeb hr2
        exact ⟨ha, by rw [hp]; exact pyStartsWith_slash _, hrest⟩
      · obtain ⟨ha, hp, hrest⟩ := record_from_role hashFn senv.probe hws _ origD _ rec horig hr3
        exact ⟨ha, by rw [hp]; exact pyStartsWith_slash _, hrest⟩
    · obtain ⟨h1, h2, r1, r2, _, _, hr1, hr2, he⟩ :=
        mkEnvelope2_inv n v (poolPath n) dscD natD e hm
      subst he
      have hrole : rec = r1 ∨ rec = r2 := by
        rcases mem_assocInsert _ _ _ kv hkv with rfl | hkv2
        · rcases List.mem_singleton.mp hrec with rfl; exact Or.inr rfl
        · rcases mem_assocInsert _ _ _ kv hkv2 with rfl | hkv3
          · rcases List.mem_singleton.mp hrec with rfl; exact Or.inl rfl
          · exact absurd hkv3 (List.not_mem_nil kv)
      rcases hrole with rfl | rfl
      · obtain ⟨ha, hp, hrest⟩ := record_from_role hashFn senv.probe hws _ dscD _ rec hdsc hr1
        exact ⟨ha, by rw [hp]; exact pyStartsWith_slash _, hrest⟩
      · obtain ⟨ha, hp, hrest⟩ := record_from_role hashFn senv.probe hws _ natD _ rec hnat hr2
        exact ⟨ha, by rw [hp]; exact pyStartsWith_slash _, hrest⟩
  · intro h kv hkv rec hrec
    obtain ⟨files, i1, i2, d1, d2, r, fi, hrf, hs1, hs2, hst, hbr, hbf, he⟩ :=
      get_bin_binEnv_inv hashFn benv n2 v2 e2 sc2 h
    subst he
    rcases binFileinfoMap_records (binDataList d1 d2) [] fi hbf kv hkv rec hrec with
      ⟨kv2, hkv2, _⟩ | ⟨p, hp, fsv, szv, hpf, hps, hrec2⟩
    · exact absurd hkv2 (List.not_mem_nil kv2)
    · rcases mem_binDataList d1 d2 p hp with ⟨_, hd1⟩ | ⟨_, hd2⟩
      · obtain ⟨f, hf, hbn, r2, t, hpr, hok, hlm, hbd⟩ :=
          binScan_sound hashFn benv.probe _ files emptyInfo i1 p.2 (by rw [hs1, hd1])
        have hwf := hwb f r2 t hpr hlm
        rw [hbd] at hpf
        simp only [Option.some.injEq] at hpf
        subst hrec2
        exact ⟨rfl, t, hwf, hpf.symm, by rw [hpf.symm]; exact formatTimestamp_len t hwf⟩
      · obtain ⟨f, hf, hbn, r2, t, hpr, hok, hlm, hbd⟩ :=
          binScan_sound hashFn benv.probe _ files i1 i2 p.2 (by rw [hs2, hd2])
        have hwf := hwb f r2 t hpr hlm
        rw [hbd] at hpf
        simp only [Option.some.injEq] at hpf
        subst hrec2
        exact ⟨rfl, t, hwf, hpf.symm, by rw [hpf.symm]; exact formatTimestamp_len t hwf⟩

theorem envFullSrc_wf :
    ∀ f r t, envFullSrc.probe f = .response r → r.lastModified = .parsed t → t.wf := by
  intro f r t h1 h2
  simp only [envFullSrc, okResp] at h1
  split at h1
  · cases h1; cases h2; decide
  · split at h1
    · cases h1; cases h2; decide
    · split at h1
      · cases h1; cases h2; decide
      · cases h1

theorem envBinOk_wf :
    ∀ f r t, envBinOk.probe f = .response r → r.lastModified = .parsed t → t.wf := by
  intro f r t h1 h2
  simp only [envBinOk, okResp] at h1
  split at h1
  · cases h1; cases h2; decide
  · cases h1

def recDsc : FileRecord := ⟨"foo_1.0-1.dsc", "debian", "/pool/main/f/foo", "20210102T030405Z", 1⟩

def recBinAmd : FileRecord :=
  ⟨"foo_1.0-1_amd64.deb", "debian", "r4.1/f/foo_1.0-1_amd64.deb", "20210102T030405Z", 1⟩

theorem fallback_record_fields_witness :
    (recDsc.archive_name = "debian" ∧ pyStartsWith recDsc.path "/" = true ∧
      ∃ t, t.wf ∧ recDsc.first_seen = formatTimestamp t ∧ recDsc.first_seen.length = 16) ∧
    (recBinAmd.archive_name = "debian" ∧
      ∃ t, t.wf ∧ recBinAmd.first_seen = formatTimestamp t ∧
        recBinAmd.first_seen.length = 16) :=
  ⟨(fallback_record_fields hashLen envFullSrc envBinOk "foo" "1.0-1" "foo" "1.0-1"
      eFullSrc eBinOk 200 200 envFullSrc_wf envBinOk_wf).1 rfl ("h1", [recDsc])
      (by decide) recDsc (by decide),
   (fallback_record_fields hashLen envFullSrc envBinOk "foo" "1.0-1" "foo" "1.0-1"
      eFullSrc eBinOk 200 200 envFullSrc_wf envBinOk_wf).2 rfl ("h1", [recBinAmd])
      (by decide) recBinAmd (by decide)⟩
